import Mathlib

/-!
Shallow embedding of the simul client library core (src/simul), covering the
format-handler family (`formats.py`), the endpoint descriptor (`endpoints.py`),
the request executor (`session.py`) and the model conversion step
(`models.py`), together with theorems settling the frozen claims about the
decode pipeline.

Python values that flow through the pipeline (strings, decoded JSON data,
httpx response objects, datetimes produced by the converters) are embedded in
one inductive type `Value`.  Python exceptions raised inside the pipeline are
embedded in `PyErr`.  Machine-level aspects that no claim touches (URL
resolution, byte decoding, float JSON numbers) are outside the model.
-/

namespace Simul

/-- Embedded Python runtime values as they occur in the decode pipeline:
`pynone`/`bool`/`int`/`str`/`list`/`dict` cover JSON-representable data,
`response` is an `httpx.Response` with its status code and body text, and
`datetime` is a timezone-aware datetime carrying the epoch-milliseconds it was
built from by `utils.datetime_from_millis`. -/
inductive Value where
  | pynone : Value
  | bool (b : Bool) : Value
  | int (n : Int) : Value
  | str (s : String) : Value
  | list (xs : List Value) : Value
  | dict (kvs : List (String × Value)) : Value
  | response (status : Nat) (body : String) : Value
  | datetime (millis : Int) : Value

/-- Embedded Python exceptions raised by the pipeline: `typeError` for calling
conventions or argument types the runtime rejects, `jsonDecodeError` for
`json.JSONDecodeError` from `json.loads`, and `httpStatusError` for
`httpx.HTTPStatusError` raised by `response.raise_for_status()`, carrying the
status code and the raw (undecoded) body. -/
inductive PyErr where
  | typeError : PyErr
  | jsonDecodeError : PyErr
  | httpStatusError (status : Nat) (body : String) : PyErr
deriving DecidableEq, Repr

/-! ## Model of `json.loads`

A recursive-descent JSON reader over the characters of the input, used as the
embedding of the standard-library call `json.loads` in
`JsonHandler.parse`.  JSON numbers are modelled for integer literals only
(no claim evaluates a float literal); everything else follows RFC 8259 as
`json.loads` implements it: whitespace skipping, `null`/`true`/`false`,
strings with escapes, arrays and objects, and a rejection of trailing
input. -/

/-- JSON insignificant whitespace characters. -/
def isJsonWs (c : Char) : Bool :=
  c == ' ' || c == '\t' || c == '\n' || c == '\r'

/-- Drop leading JSON whitespace. -/
def skipWs : List Char → List Char
  | c :: rest => if isJsonWs c then skipWs rest else c :: rest
  | [] => []

/-- Value of a hexadecimal digit, for `\uXXXX` string escapes. -/
def hexVal (c : Char) : Option Nat :=
  if '0' ≤ c ∧ c ≤ '9' then some (c.toNat - '0'.toNat)
  else if 'a' ≤ c ∧ c ≤ 'f' then some (c.toNat - 'a'.toNat + 10)
  else if 'A' ≤ c ∧ c ≤ 'F' then some (c.toNat - 'A'.toNat + 10)
  else none

/-- Single-character JSON string escapes, as a lookup table from the escape
letter to the character it denotes (backspace and form feed by code point). -/
def escTable : List (Char × Char) :=
  [('"', '"'), ('\\', '\\'), ('/', '/'), ('b', Char.ofNat 8),
   ('f', Char.ofNat 12), ('n', '\n'), ('r', '\r'), ('t', '\t')]

/-- The character a single-letter escape denotes, when the letter is one of
the eight JSON escapes. -/
def escChar (c : Char) : Option Char :=
  escTable.lookup c

/-- Read the body of a JSON string literal (the opening quote already
consumed), returning the decoded string and the remaining input.  Unescaped
control characters are rejected, as `json.loads` does in strict mode. -/
def parseStringBody : List Char → List Char → Option (String × List Char)
  | '"' :: rest, acc => some (String.mk acc.reverse, rest)
  | '\\' :: 'u' :: h1 :: h2 :: h3 :: h4 :: rest, acc =>
    match hexVal h1, hexVal h2, hexVal h3, hexVal h4 with
    | some a, some b, some c, some d =>
      parseStringBody rest (Char.ofNat (((a * 16 + b) * 16 + c) * 16 + d) :: acc)
    | _, _, _, _ => none
  | '\\' :: e :: rest, acc =>
    match escChar e with
    | some c => parseStringBody rest (c :: acc)
    | none => none
  | c :: rest, acc =>
    if c.toNat < 32 then none else parseStringBody rest (c :: acc)
  | [], _ => none

/-- Split off the longest prefix of decimal digits. -/
def takeDigits : List Char → List Char × List Char
  | c :: rest =>
    if '0' ≤ c ∧ c ≤ '9' then
      let (ds, r) := takeDigits rest
      (c :: ds, r)
    else ([], c :: rest)
  | [] => ([], [])

/-- Numeric value of a digit run. -/
def digitsVal (ds : List Char) : Nat :=
  ds.foldl (fun a c => a * 10 + (c.toNat - '0'.toNat)) 0

/-- Read a JSON integer literal (optional minus sign, digit run).  Float
literals (a fraction or exponent part) are outside the model: no claim
evaluates one, and the reader rejects them rather than approximate binary
floating point. -/
def parseIntLit (cs : List Char) : Option (Value × List Char) :=
  let (neg, cs1) := match cs with
    | '-' :: rest => (true, rest)
    | _ => (false, cs)
  match takeDigits cs1 with
  | ([], _) => none
  | (ds, r) =>
    match r with
    | c :: _ =>
      if c == '.' || c == 'e' || c == 'E' then none
      else some (.int (if neg then -(digitsVal ds : Int) else (digitsVal ds : Int)), r)
    | [] => some (.int (if neg then -(digitsVal ds : Int) else (digitsVal ds : Int)), [])

/-- The opening brace character, written via its code point. -/
def lbrace : Char := Char.ofNat 123

/-- The closing brace character, written via its code point. -/
def rbrace : Char := Char.ofNat 125

mutual

/-- One step of the JSON grammar, fuelled to make the recursion through
arrays and objects structural.  Returns the parsed value and the unconsumed
rest of the input. -/
def parseJsonValue : Nat → List Char → Option (Value × List Char)
  | 0, _ => none
  | fuel + 1, cs =>
    match skipWs cs with
    | '"' :: rest =>
      (match parseStringBody rest [] with
       | some (s, r) => some (.str s, r)
       | none => none)
    | 'n' :: 'u' :: 'l' :: 'l' :: rest => some (.pynone, rest)
    | 't' :: 'r' :: 'u' :: 'e' :: rest => some (.bool true, rest)
    | 'f' :: 'a' :: 'l' :: 's' :: 'e' :: rest => some (.bool false, rest)
    | '[' :: rest =>
      (match skipWs rest with
       | ']' :: r => some (.list [], r)
       | other => parseJsonArrayItems fuel other [])
    | c :: rest =>
      if c == lbrace then
        match skipWs rest with
        | d :: r =>
          if d == rbrace then some (.dict [], r)
          else parseJsonObjectItems fuel (d :: r) []
        | [] => none
      else parseIntLit (c :: rest)
    | [] => none

/-- Comma-separated array elements, after the opening bracket. -/
def parseJsonArrayItems : Nat → List Char → List Value → Option (Value × List Char)
  | 0, _, _ => none
  | fuel + 1, cs, acc =>
    match parseJsonValue fuel cs with
    | none => none
    | some (v, r) =>
      match skipWs r with
      | ',' :: r2 => parseJsonArrayItems fuel r2 (v :: acc)
      | ']' :: r2 => some (.list (v :: acc).reverse, r2)
      | _ => none

/-- Comma-separated string-keyed members, after the opening brace. -/
def parseJsonObjectItems : Nat → List Char → List (String × Value) →
    Option (Value × List Char)
  | 0, _, _ => none
  | fuel + 1, cs, acc =>
    match skipWs cs with
    | '"' :: rest =>
      match parseStringBody rest [] with
      | none => none
      | some (k, r) =>
        match skipWs r with
        | ':' :: r2 =>
          (match parseJsonValue fuel r2 with
           | none => none
           | some (v, r3) =>
             match skipWs r3 with
             | d :: r4 =>
               if d == ',' then parseJsonObjectItems fuel r4 ((k, v) :: acc)
               else if d == rbrace then some (.dict ((k, v) :: acc).reverse, r4)
               else none
             | [] => none)
        | _ => none
    | _ => none

end

/-- Embedding of `json.loads` as called by `JsonHandler.parse`: accepts a
string and decodes one JSON document from it (rejecting trailing input, as
`json.loads` does); any non-string argument - in particular the
`httpx.Response` object handed over by the non-streaming branch of
`Requestor.request` - raises `TypeError`, since `json.loads` only accepts
`str`, `bytes` or `bytearray`. -/
def json_loads (v : Value) : Except PyErr Value :=
  match v with
  | .str s =>
    (match parseJsonValue (2 * s.length + 16) s.toList with
     | some (j, rest) =>
       if (skipWs rest).isEmpty then .ok j else .error .jsonDecodeError
     | none => .error .jsonDecodeError)
  | _ => .error .typeError

/-! ## `utils.py` -/

/-- Embedding of `utils.noop`: return the argument unchanged. -/
def noop : Value → Value := fun arg => arg

/-- Embedding of `utils.datetime_from_millis`: build a timezone-aware
datetime from epoch milliseconds (via `datetime_from_seconds(millis / 1000)`);
the datetime is represented by the milliseconds it was built from.  The
claims only apply it to integer fields, the shape the API delivers. -/
def datetime_from_millis : Value → Value
  | .int n => .datetime n
  | v => v

/-! ## `formats.py`

The handler classes are `FormatHandler` (base, `parse` returns the content
unchanged), `JsonHandler` (overrides `parse` with `json.loads`), `PgnHandler`
(overrides `handle` to force the converter to `utils.noop`) and `TextHandler`
(inherits both methods).  A handler value records which class it belongs to
and its constructor-time mime type.

Python keyword semantics matter here: `FormatHandler.handle(self, content,
converter=utils.noop)` can receive `converter` positionally (as
`Requestor.request` does) or as a keyword; `PgnHandler.handle(self, *args,
**kwargs)` re-inserts `kwargs["converter"] = utils.noop` before delegating,
so a positionally supplied converter reaches the base method twice and the
call raises `TypeError` (multiple values for argument `converter`).  The
embedding therefore passes the converter as two `Option` slots, positional
and keyword. -/

/-- A format-handler instance: its class together with the mime type fixed at
construction (`PgnHandler` and `TextHandler` hard-code theirs). -/
inductive Handler where
  | jsonHandler (mimeType : String) : Handler
  | pgnHandler : Handler
  | textHandler : Handler
deriving DecidableEq, Repr

/-- The `mime_type` attribute set by `FormatHandler.__init__`. -/
def Handler.mimeType : Handler → String
  | .jsonHandler m => m
  | .pgnHandler => "application/x-chess-pgn"
  | .textHandler => "text/plain"

/-- The `headers` attribute set by `FormatHandler.__init__`:
an `Accept` entry for the mime type. -/
def Handler.headers (h : Handler) : List (String × String) :=
  [("Accept", h.mimeType)]

/-- Method resolution for `parse`: `JsonHandler.parse` runs `json.loads` on
the content; every other class uses `FormatHandler.parse`, which returns the
content unchanged. -/
def Handler.parse : Handler → Value → Except PyErr Value
  | .jsonHandler _, content => json_loads content
  | _, content => .ok content

/-- Body of `FormatHandler.handle(content, converter=utils.noop)` under the
Python calling convention: supplying `converter` both positionally and as a
keyword raises `TypeError`; otherwise the effective converter (defaulting to
`utils.noop`) is applied to `parse(content)`. -/
def baseHandle (h : Handler) (content : Value)
    (posConverter kwConverter : Option (Value → Value)) : Except PyErr Value :=
  match posConverter, kwConverter with
  | some _, some _ => .error .typeError
  | p, k => (h.parse content).map ((p <|> k).getD noop)

/-- Method resolution for `handle`: `PgnHandler.handle(*args, **kwargs)` sets
`kwargs["converter"] = utils.noop` (discarding any keyword converter, and
clashing with a positional one) before delegating to the base method; every
other class uses `FormatHandler.handle` directly. -/
def Handler.handle (h : Handler) (content : Value)
    (posConverter kwConverter : Option (Value → Value)) : Except PyErr Value :=
  match h with
  | .pgnHandler => baseHandle h content posConverter (some noop)
  | _ => baseHandle h content posConverter kwConverter

/-- The module-level instance `TEXT = TextHandler()`. -/
def TEXT : Handler := .textHandler

/-- The module-level instance `JSON = JsonHandler(mime_type='application/json')`. -/
def JSON : Handler := .jsonHandler "application/json"

/-- The module-level instance
`LIJSON = JsonHandler(mime_type='application/vnd.lichess.v3+json')`. -/
def LIJSON : Handler := .jsonHandler "application/vnd.lichess.v3+json"

/-- The module-level instance `PGN = PgnHandler()`. -/
def PGN : Handler := .pgnHandler

/-- The complete set of module-level handler bindings of `formats.py`
(its lines 104 to 107), keyed by the exported name. -/
def formatsModuleConstants : List (String × Handler) :=
  [("TEXT", TEXT), ("JSON", JSON), ("LIJSON", LIJSON), ("PGN", PGN)]

/-! ## `endpoints.py` -/

/-- Embedding of the `Endpoint` dataclass.  `PostEndpoint`, `StreamEndpoint`
and `StreamPostEndpoint` only change the defaults of `method` and `stream`,
so all four are values of this one structure.  The call operator wrappers add
no behavior beyond delegating to `Requestor.request`. -/
structure Endpoint where
  path : String
  stream : Bool := false
  method : String := "GET"
  fmt : Option Handler := none
  converter : Option (Value → Value) := none

/-! ## `session.py` -/

/-- The `Requestor` state: the session object is an external transport and is
represented by the response it delivers, so only `base_url` and
`default_fmt` are carried. -/
structure Requestor where
  base_url : String
  default_fmt : Handler

/-- One HTTP response delivered by the transport: status code and body text. -/
structure Response where
  status : Nat
  body : String

/-- Embedding of `httpx.Response.is_success`, the predicate behind
`raise_for_status`: a status in the 2xx range. -/
def is2xx (status : Nat) : Bool :=
  200 ≤ status && status < 300

/-- Embedding of `httpx` line splitting (`Response.aiter_lines`): the body is
split at `\n`, `\r\n` or `\r`, a trailing line break produces no trailing
empty line, and an empty body produces no lines - the semantics of
`str.splitlines` restricted to the line breaks httpx recognizes. -/
def splitLinesAux : List Char → List Char → List String
  | [], [] => []
  | [], acc => [String.mk acc.reverse]
  | '\r' :: '\n' :: rest, acc => String.mk acc.reverse :: splitLinesAux rest []
  | '\n' :: rest, acc => String.mk acc.reverse :: splitLinesAux rest []
  | '\r' :: rest, acc => String.mk acc.reverse :: splitLinesAux rest []
  | c :: rest, acc => splitLinesAux rest (c :: acc)

/-- The lines of a streamed response body, in arrival order. -/
def aiterLines (body : String) : List String :=
  splitLinesAux body.toList []

/-- What one request call produces, observed at the caller: the headers that
were sent, the values the generator yielded, and the exception it raised
(after those values), if any. -/
structure RequestResult where
  sentHeaders : List (String × String)
  yielded : List Value
  err : Option PyErr

/-- The streaming loop of `Requestor.request`: `async for line in
response.aiter_lines(): yield fmt.handle(line)` - each line is handled with
no converter argument at all, values are yielded until a line's handling
raises, and that exception ends the generator. -/
def streamYield (fmt : Handler) : List String → List Value × Option PyErr
  | [] => ([], none)
  | line :: rest =>
    match fmt.handle (.str line) none none with
    | .error e => ([], some e)
    | .ok v =>
      let (vs, e) := streamYield fmt rest
      (v :: vs, e)

/-- Embedding of `Requestor.request(ep, **kwargs)` for one delivered
response.  Following the source: resolve `fmt = ep.fmt or self.default_fmt`;
overwrite `kwargs['headers'] = fmt.headers` (any caller-supplied headers
argument is replaced, not merged); `raise_for_status()` before anything is
yielded; then either iterate `fmt.handle(line)` over the body lines
(streaming) or yield the single value `fmt.handle(response, ep.converter or
utils.noop)` - the converter passed positionally. -/
def Requestor.request (r : Requestor) (ep : Endpoint)
    (callerHeaders : Option (List (String × String))) (resp : Response) :
    RequestResult :=
  let fmt := ep.fmt.getD r.default_fmt
  let hdrs := fmt.headers
  let out : List Value × Option PyErr :=
    if is2xx resp.status then
      if ep.stream then
        streamYield fmt (aiterLines resp.body)
      else
        match fmt.handle (.response resp.status resp.body)
            (some (ep.converter.getD noop)) none with
        | .error e => ([], some e)
        | .ok v => ([v], none)
    else
      ([], some (.httpStatusError resp.status resp.body))
  { sentHeaders := hdrs, yielded := out.1, err := out.2 }

/-! ## `models.py` -/

/-- Embedding of `Model.convert_one`: for every key of the document that has
a registered conversion, replace its value by the converted one
(`data[k] = cls.conversions[k](data[k])`); all other keys keep their values,
and insertion order is preserved, as Python dict update semantics guarantee.
The set-intersection loop of the source touches exactly the keys present in
both the document and the conversion table, and updates to distinct keys
commute, so the iteration order of the sets does not matter. -/
def convert_one (conversions : List (String × (Value → Value)))
    (data : List (String × Value)) : List (String × Value) :=
  data.map (fun kv =>
    match conversions.lookup kv.1 with
    | some f => (kv.1, f kv.2)
    | none => kv)

/-- The document as the caller sees it after `convert_one` returns: the
source assigns `data[k] = ...` on the dictionary object the caller passed in,
so the caller's binding holds the converted document, not the original. -/
def convert_one_caller_after (conversions : List (String × (Value → Value)))
    (data : List (String × Value)) : List (String × Value) :=
  convert_one conversions data

/-- Lift of `convert_one` from association lists to values, for converters
applied to decoded documents. -/
def convert_one_value (conversions : List (String × (Value → Value))) :
    Value → Value
  | .dict kvs => .dict (convert_one conversions kvs)
  | v => v

/-- Embedding of `Model.convert`: a list is converted elementwise by
`convert_one`, anything else is converted directly. -/
def model_convert (conversions : List (String × (Value → Value))) :
    Value → Value
  | .list xs => .list (xs.map (convert_one_value conversions))
  | v => convert_one_value conversions v

/-- The conversion table harvested from the `Account` model class by the
`model` metaclass: its non-underscore class attributes. -/
def Account_conversions : List (String × (Value → Value)) :=
  [("createdAt", datetime_from_millis), ("seenAt", datetime_from_millis)]

/-- The conversion table harvested from the `GameState` model class. -/
def GameState_conversions : List (String × (Value → Value)) :=
  [("createdAt", datetime_from_millis), ("wtime", datetime_from_millis),
   ("btime", datetime_from_millis), ("winc", datetime_from_millis),
   ("binc", datetime_from_millis)]

/-- A requestor configured as `clients._BaseClient.__init__` configures it:
the production base URL and the JSON handler as the default format. -/
def liRequestor : Requestor :=
  { base_url := "https://lichess.org/", default_fmt := JSON }

/-!
## Theorems about the claims
-/

/-- C1: the claim says a streaming endpoint's yielded values are
`handle(line, endpoint.converter or identity)`, so a non-null endpoint
converter is applied to every streamed record.  The code calls
`fmt.handle(line)` with no converter at all: a streaming endpoint registered
with the `GameState` converter (as `clients.stream_game_state` registers it)
yields the decoded line unconverted, and the converted document differs from
the yielded one. -/
theorem c1_stream_converter_ignored :
    (liRequestor.request
        { path := "api/bot/game/stream/xyz", stream := true,
          converter := some (model_convert GameState_conversions) } none
        ⟨200, "\x7b\"wtime\": 1000\x7d"⟩).yielded
      = [Value.dict [("wtime", Value.int 1000)]]
    ∧ model_convert GameState_conversions (Value.dict [("wtime", Value.int 1000)])
        ≠ Value.dict [("wtime", Value.int 1000)] := by
  refine ⟨rfl, ?_⟩
  show Value.dict [("wtime", Value.datetime 1000)] ≠ Value.dict [("wtime", Value.int 1000)]
  intro h
  injection h with h1
  injection h1 with h2 h3
  injection h2 with h4 h5
  exact Value.noConfusion h5

/-- C2: the claim says a successful non-streaming call yields exactly one
decoded value, and a streaming call one value per non-empty line.  On the
code, a non-streaming call with the default JSON handler hands the whole
`httpx.Response` object to `json.loads`, which raises `TypeError`, so
nothing is yielded; and the streaming loop yields a value for every line,
empty lines included (three values for the two-line body with a blank
between). -/
theorem c2_nonstream_json_typeerror :
    ((liRequestor.request { path := "api/account" } none
        ⟨200, "\x7b\"username\": \"alice\"\x7d"⟩).yielded = []
      ∧ (liRequestor.request { path := "api/account" } none
        ⟨200, "\x7b\"username\": \"alice\"\x7d"⟩).err = some PyErr.typeError)
    ∧ (liRequestor.request { path := "api/board/seek", stream := true, fmt := some TEXT }
        none ⟨200, "a\n\nb"⟩).yielded
      = [Value.str "a", Value.str "", Value.str "b"] :=
  ⟨⟨rfl, rfl⟩, rfl⟩

/-- C3: for every endpoint, streaming or not, a response status outside 2xx
makes `Requestor.request` raise `HttpStatusError` before any value is
yielded, with the raw body carried undecoded (the format handler is never
applied) and no internal retry (the embedding consumes exactly one
response). -/
theorem c3_non2xx_raises_before_yield (r : Requestor) (ep : Endpoint)
    (callerHeaders : Option (List (String × String))) (resp : Response)
    (h : is2xx resp.status = false) :
    (r.request ep callerHeaders resp).yielded = []
    ∧ (r.request ep callerHeaders resp).err
        = some (PyErr.httpStatusError resp.status resp.body) := by
  unfold Requestor.request
  simp [h]

/-- C3 witness: a 404 on a concrete endpoint yields nothing and raises
`HttpStatusError` carrying 404 and the raw body. -/
theorem c3_witness :
    (liRequestor.request { path := "api/account" } none ⟨404, "oops"⟩).yielded = []
    ∧ (liRequestor.request { path := "api/account" } none ⟨404, "oops"⟩).err
        = some (PyErr.httpStatusError 404 "oops") :=
  c3_non2xx_raises_before_yield liRequestor { path := "api/account" } none ⟨404, "oops"⟩ rfl

/-- C4 counterexample: the claim says caller-supplied header entries other
than Accept survive into the request that is sent.  The code assigns
`kwargs['headers'] = fmt.headers`, so a caller-supplied `X-Foo` entry is
gone from the sent headers. -/
theorem c4_counterexample :
    ¬ ((liRequestor.request { path := "api/account" }
        (some [("X-Foo", "bar")]) ⟨200, "\x7b\x7d"⟩).sentHeaders.lookup "X-Foo"
      = some "bar") := fun h => Option.noConfusion h

/-- C4 amended: the resolved handler's headers replace any caller-supplied
headers argument entirely - for every endpoint, caller headers argument and
response, the request is sent with exactly the Accept entry of the resolved
format handler. -/
theorem c4_headers_clobbered (r : Requestor) (ep : Endpoint)
    (callerHeaders : Option (List (String × String))) (resp : Response) :
    (r.request ep callerHeaders resp).sentHeaders
      = [("Accept", (ep.fmt.getD r.default_fmt).mimeType)] := rfl

/-- C5: the claim says a successful non-streaming PGN call yields the
response text unchanged.  On the code the call raises `TypeError` and yields
nothing: `Requestor.request` passes the converter positionally while
`PgnHandler.handle` re-inserts it as a keyword, so the base method receives
`converter` twice. -/
theorem c5_pgn_nonstream_typeerror :
    (liRequestor.request { path := "game/export/abc123", fmt := some PGN } none
        ⟨200, "[Event \"Casual game\"]\n\n1. e4 e5"⟩).yielded = []
    ∧ (liRequestor.request { path := "game/export/abc123", fmt := some PGN } none
        ⟨200, "[Event \"Casual game\"]\n\n1. e4 e5"⟩).err = some PyErr.typeError :=
  ⟨rfl, rfl⟩

/-- C6: for the PGN handler and every payload, `handle` with any converter
supplied as a keyword argument returns the same value as `handle` with the
converter left to its default: `PgnHandler.handle` overwrites the keyword
slot with `utils.noop` either way. -/
theorem c6_pgn_converter_invariant (payload : Value) (f : Value → Value) :
    PGN.handle payload none (some f) = PGN.handle payload none none := rfl

/-- Helper: with no converter supplied in either position, the base handle
method is parse followed by the identity default converter. -/
theorem baseHandle_no_converter (h : Handler) (content : Value) :
    baseHandle h content none none = h.parse content := by
  unfold baseHandle
  cases h.parse content <;> rfl

/-- C7: for every non-PGN handler and every payload, `handle` invoked with no
converter supplied returns exactly `parse` of that payload (the default
converter is `utils.noop`, the identity). -/
theorem c7_handle_default_is_parse (h : Handler) (hne : h ≠ Handler.pgnHandler)
    (content : Value) :
    h.handle content none none = h.parse content := by
  cases h with
  | pgnHandler => exact absurd rfl hne
  | jsonHandler m => exact baseHandle_no_converter (Handler.jsonHandler m) content
  | textHandler => exact baseHandle_no_converter Handler.textHandler content

/-- C7 witness: the JSON handler on the payload `5`. -/
theorem c7_witness :
    JSON.handle (.str "5") none none = JSON.parse (.str "5") :=
  c7_handle_default_is_parse JSON (by decide) (.str "5")

/-- C8: the claim says the module-level handler family includes an NDJSON
instance with mime type `application/x-ndjson`, importable by the resource
clients.  The module-level bindings of `formats.py` are exactly TEXT, JSON,
LIJSON and PGN: no binding is named NDJSON and no instance carries the
`application/x-ndjson` mime type, so the import in `clients.py` line 23
fails. -/
theorem c8_no_ndjson_constant :
    formatsModuleConstants.lookup "NDJSON" = none
    ∧ formatsModuleConstants.all
        (fun p => !(p.2.mimeType == "application/x-ndjson")) = true :=
  ⟨rfl, rfl⟩

/-- C9 counterexample: the claim says every handler's `parse` is idempotent
over payloads of its own mime type.  For the JSON handler and the valid JSON
payload `"\"hi\""` (a JSON string whose content is again a JSON string),
parsing twice succeeds but gives a different value than parsing once. -/
theorem c9_json_parse_not_idempotent :
    (JSON.parse (.str "\"\\\"hi\\\"\"")).bind JSON.parse
      ≠ JSON.parse (.str "\"\\\"hi\\\"\"") := by
  show (Except.ok (Value.str "hi") : Except PyErr Value) ≠ Except.ok (Value.str "\"hi\"")
  intro h
  injection h with h1
  injection h1 with h2
  exact absurd h2 (by decide)

/-- C9 amended: `parse` is a pure function of the payload for every handler
(handlers carry no mutable state in the embedding), and for the
identity-parsing handlers (text and PGN) it is total and idempotent:
parsing twice equals parsing once and never fails.  The JSON handlers are
deterministic but not idempotent, by the counterexample. -/
theorem c9_identity_handlers_parse_idempotent (payload : Value) :
    ((TEXT.parse payload).bind TEXT.parse = TEXT.parse payload
      ∧ TEXT.parse payload = .ok payload)
    ∧ (PGN.parse payload).bind PGN.parse = PGN.parse payload
    ∧ PGN.parse payload = .ok payload :=
  ⟨⟨rfl, rfl⟩, rfl, rfl⟩

/-- C10 counterexample: the claim says the conversion runs on a mutable copy
and the caller's original document is not mutated.  `Model.convert_one`
assigns into the dictionary the caller passed (`data[k] = ...`), so after
converting an `Account` document with an integer `createdAt`, the caller's
document holds the converted datetime, not the original integer. -/
theorem c10_caller_document_mutated :
    convert_one_caller_after Account_conversions [("createdAt", Value.int 0)]
      ≠ [("createdAt", Value.int 0)] := by
  show [("createdAt", Value.datetime 0)] ≠ [("createdAt", Value.int 0)]
  intro h
  injection h with h1
  injection h1 with h2 h3
  exact Value.noConfusion h3

/-- C10 amended: for every conversion table, document and field, the
conversion step applies a registered converter exactly to the fields present
in both the document and the table, leaves every other field unchanged and
preserves the key order - but it updates the document in place and returns
it, so the caller's document is the converted one. -/
theorem c10_convert_one_fields (conversions : List (String × (Value → Value)))
    (data : List (String × Value)) (k : String) :
    (convert_one conversions data).lookup k
      = (data.lookup k).map (fun v => ((conversions.lookup k).getD id) v)
    ∧ (convert_one conversions data).map Prod.fst = data.map Prod.fst := by
  constructor
  · induction data with
    | nil => rfl
    | cons kv rest ih =>
      obtain ⟨k1, v1⟩ := kv
      cases hk : (k == k1) with
      | true =>
        have hkk : k = k1 := eq_of_beq hk
        subst hkk
        cases hc : conversions.lookup k <;>
          simp [convert_one, List.lookup, hc]
      | false =>
        cases hc : conversions.lookup k1 <;>
          simp only [convert_one, List.map_cons, List.lookup, hc, hk] <;>
          exact ih
  · induction data with
    | nil => rfl
    | cons kv rest ih =>
      obtain ⟨k1, v1⟩ := kv
      cases hc : conversions.lookup k1 <;>
        simp only [convert_one, List.map_cons, hc] <;>
        exact congrArg (List.cons k1) ih

end Simul
